import Mathlib

/-!
# Verification of the keto-k8 bootstrap coordinator (kmm / kubeadm packages)

A shallow embedding, in Lean 4, of the election-and-asset-sharing coordinator:

* `kmm` package (file `part_000`): `New`, `CreateOrGetSharedAssets` (the
  election loop), `BootstrapOnce`, `BootstrapSecondaryMaster`, `CleanUp`,
  `stringToMap`;
* `kubeadm` package (file `part_001`): `LoadAndSerializeAssets`, `SaveAssets`
  and the JSON transport encoding of the `SharedAssets` structure.

Go strings are modelled as `List Char` (i.e. sequences of Unicode scalar
values; this is exactly the valid-UTF-8 Go strings, which covers every string
the program manipulates — PEM text and JSON).  External effects (the etcd
store, the filesystem, the kubeadm binary, the cloud provider) are modelled
by explicit environments recording the outcome each call would produce, and
each modelled function returns the trace of calls it performed together with
its Go return values.
-/

namespace KetoK8

/-- Errors as the coordinator distinguishes them: the distinguished
`etcd.ErrKeyMissing` sentinel (compared with `==` in the election loop),
any other error (carrying its message), and errors wrapped by
`fmt.Errorf("..... [%v]", err)`. -/
inductive Err where
  | keyMissing : Err
  | other : String → Err
  | wrapped : String → Err → Err
deriving DecidableEq, Repr

/-- Model of `kubeadm.SharedAssets` — the data shared between all kubernetes masters
(file `part_001`, lines 62–67).  Field order matters: `encoding/json`
serializes struct fields in declaration order. -/
structure SharedAssets where
  FrontProxyCa : List Char
  FrontProxyCaKey : List Char
  SaPub : List Char
  SaKey : List Char
deriving DecidableEq, Repr

instance : Inhabited SharedAssets := ⟨⟨[], [], [], []⟩⟩

/-! ## The Go `encoding/json` string codec, specialised to `SharedAssets`

`LoadAndSerializeAssets` publishes the bundle as `json.Marshal` of the
struct; `SaveAssets` recovers it with `json.Unmarshal`.  We model the
marshaller exactly on valid-UTF-8 strings: Go escapes `"`, `\`, the three
short forms for newline, carriage return and tab, every other control byte
as a backslash-u escape with two hex digits, the three HTML-sensitive
characters (less-than, greater-than, ampersand) and U+2028/U+2029 as
backslash-u escapes; every other scalar value is passed through. -/

/-- Lower-case hexadecimal digit, as the Go encoder emits (`"0123456789abcdef"`). -/
def hexDigitChar (n : Nat) : Char :=
  match n with
  | 0 => '0' | 1 => '1' | 2 => '2' | 3 => '3'
  | 4 => '4' | 5 => '5' | 6 => '6' | 7 => '7'
  | 8 => '8' | 9 => '9' | 10 => 'a' | 11 => 'b'
  | 12 => 'c' | 13 => 'd' | 14 => 'e' | _ => 'f'

/-- Value of one hexadecimal digit accepted by the Go backslash-u decoder. -/
def hexVal (c : Char) : Option Nat :=
  if '0' ≤ c ∧ c ≤ '9' then some (c.toNat - 48)
  else if 'a' ≤ c ∧ c ≤ 'f' then some (c.toNat - 87)
  else if 'A' ≤ c ∧ c ≤ 'F' then some (c.toNat - 55)
  else none

/-- How the Go JSON encoder (HTML-escaping on, as in `json.Marshal`) writes one
Unicode scalar value inside a string literal. -/
def escapeChar (c : Char) : List Char :=
  if c = '"' then ['\\', '"']
  else if c = '\\' then ['\\', '\\']
  else if c = '\n' then ['\\', 'n']
  else if c = '\r' then ['\\', 'r']
  else if c = '\t' then ['\\', 't']
  else if c.toNat < 0x20 ∨ c = '<' ∨ c = '>' ∨ c = '&' then
    ['\\', 'u', '0', '0', hexDigitChar (c.toNat / 16), hexDigitChar (c.toNat % 16)]
  else if c.toNat = 0x2028 ∨ c.toNat = 0x2029 then
    ['\\', 'u', '2', '0', '2', hexDigitChar (c.toNat % 16)]
  else [c]

/-- A JSON string literal: quote, escaped characters, quote. -/
def encStr (s : List Char) : List Char :=
  '"' :: s.flatMap escapeChar ++ ['"']

/-- The scalar value produced by a `\uXXXX` escape: the code point when it is
a valid scalar value, else U+FFFD (Go substitutes `unicode.ReplacementChar`
for invalid escapes such as lone surrogates). -/
def codePointChar (n : Nat) : Char :=
  if Nat.isValidChar n then Char.ofNat n else '�'

/-- Short (two-character) escapes accepted by the Go JSON string decoder. -/
def unescapeShort (e : Char) : Option Char :=
  if e = '"' then some '"'
  else if e = '\\' then some '\\'
  else if e = '/' then some '/'
  else if e = 'b' then some (Char.ofNat 8)
  else if e = 'f' then some (Char.ofNat 12)
  else if e = 'n' then some '\n'
  else if e = 'r' then some '\r'
  else if e = 't' then some '\t'
  else none

/-- Decoder for the body of a JSON string literal (everything after the
opening quote): returns the decoded content and the input remaining after
the closing quote.  (Surrogate-pair combination is not modelled: the encoder
above never emits a `\uXXXX` escape in the surrogate range, so the two
models agree on every marshalled payload.) -/
def parseStringBody (l : List Char) : Option (List Char × List Char) :=
  match l with
  | [] => none
  | c :: rest =>
    if c = '"' then some ([], rest)
    else if c = '\\' then
      match rest with
      | 'u' :: h1 :: h2 :: h3 :: h4 :: r =>
        match hexVal h1, hexVal h2, hexVal h3, hexVal h4 with
        | some a, some b, some c3, some d =>
          (parseStringBody r).map fun p => (codePointChar (((a * 16 + b) * 16 + c3) * 16 + d) :: p.1, p.2)
        | _, _, _, _ => none
      | e :: r =>
        match unescapeShort e with
        | some c2 => (parseStringBody r).map fun p => (c2 :: p.1, p.2)
        | none => none
      | [] => none
    else (parseStringBody rest).map fun p => (c :: p.1, p.2)

/-- A whole JSON string literal: an opening quote followed by a body. -/
def parseJString (l : List Char) : Option (List Char × List Char) :=
  match l with
  | c :: rest => if c = '"' then parseStringBody rest else none
  | [] => none

/-- JSON insignificant whitespace. -/
def isJsonWs (c : Char) : Bool :=
  c = ' ' ∨ c = '\t' ∨ c = '\n' ∨ c = '\r'

/-- Skip insignificant whitespace. -/
def skipWs (l : List Char) : List Char :=
  l.dropWhile isJsonWs

/-- Members of a JSON object whose values are all string literals (the only
shape `SharedAssets` produces): `"key":"value"` pairs separated by commas,
terminated by `}`.  Fuel bounds the recursion; any fuel at least the number
of members suffices. -/
def parseMembers : Nat → List Char → Option (List (List Char × List Char) × List Char)
  | 0, _ => none
  | fuel + 1, l =>
    match parseJString l with
    | none => none
    | some (k, r1) =>
      match skipWs r1 with
      | c :: r2 =>
        if c = ':' then
          match parseJString (skipWs r2) with
          | none => none
          | some (v, r3) =>
            match skipWs r3 with
            | c2 :: r4 =>
              if c2 = ',' then
                (parseMembers fuel (skipWs r4)).map fun p => ((k, v) :: p.1, p.2)
              else if c2 = '}' then some ([(k, v)], r4)
              else none
            | [] => none
        else none
      | [] => none

/-- A JSON object of string fields: `{}` or `{ members }`. -/
def parseObj (l : List Char) : Option (List (List Char × List Char) × List Char) :=
  match skipWs l with
  | c :: r =>
    if c = '{' then
      match skipWs r with
      | c2 :: r2 =>
        if c2 = '}' then some ([], r2)
        else parseMembers ((c2 :: r2).length + 1) (c2 :: r2)
      | [] => none
    else none
  | [] => none

/-- Assign decoded members to `SharedAssets` fields the way `json.Unmarshal`
does: fields are matched by name (our payloads always carry the exact
declared names), unknown keys are ignored, and a later duplicate overwrites
an earlier one. -/
def applyFields (a : SharedAssets) : List (List Char × List Char) → SharedAssets
  | [] => a
  | (k, v) :: rest =>
    if k = "FrontProxyCa".data then applyFields { a with FrontProxyCa := v } rest
    else if k = "FrontProxyCaKey".data then applyFields { a with FrontProxyCaKey := v } rest
    else if k = "SaPub".data then applyFields { a with SaPub := v } rest
    else if k = "SaKey".data then applyFields { a with SaKey := v } rest
    else applyFields a rest

/-- Model of `json.Marshal` of a `SharedAssets` value (`part_001`, line 121): the
object with the four fields in declaration order and no whitespace. -/
def marshalSharedAssets (a : SharedAssets) : List Char :=
  '{' :: (encStr "FrontProxyCa".data ++ ':' :: encStr a.FrontProxyCa
    ++ ',' :: encStr "FrontProxyCaKey".data ++ ':' :: encStr a.FrontProxyCaKey
    ++ ',' :: encStr "SaPub".data ++ ':' :: encStr a.SaPub
    ++ ',' :: encStr "SaKey".data ++ ':' :: encStr a.SaKey
    ++ ['}'])

/-- Model of `json.Unmarshal` of a payload into `SharedAssets` (`part_001`, line 131):
`some` of the decoded bundle on well-formed input, `none` on a decoding
error. -/
def unmarshalSharedAssets (s : List Char) : Option SharedAssets :=
  match parseObj s with
  | some (fields, rest) =>
    if skipWs rest = [] then some (applyFields default fields) else none
  | none => none

end KetoK8

namespace KetoK8

/-! ## `kubeadm.LoadAndSerializeAssets` (`part_001`, lines 85–125)

The three disk loads (`TryLoadKeyFromDisk`, `TryLoadPublicKeyFromDisk`,
`TryLoadCertAndKeyFromDisk`) and the PEM encoders are external; the
environment records, for each, the outcome: an error, or the PEM text the
encoder would produce for the loaded object.  The front-proxy load also
carries the `IsCA` bit of the loaded certificate. -/

/-- Equality of `Except` outcomes is decidable when it is on both sides. -/
instance {ε : Type u} {α : Type v} [DecidableEq ε] [DecidableEq α] :
    DecidableEq (Except ε α)
  | .ok a, .ok b =>
    if h : a = b then .isTrue (by rw [h]) else .isFalse (by intro hh; cases hh; exact h rfl)
  | .ok _, .error _ => .isFalse (by intro h; cases h)
  | .error _, .ok _ => .isFalse (by intro h; cases h)
  | .error a, .error b =>
    if h : a = b then .isTrue (by rw [h]) else .isFalse (by intro hh; cases hh; exact h rfl)

/-- Outcomes of the disk loads performed by `LoadAndSerializeAssets`. -/
structure LoadEnv where
  saKeyLoad : Except Err (List Char)
  saPubLoad : Except Err (List Char)
  /-- On success: `(IsCA, cert PEM, key PEM)` of the front-proxy CA pair. -/
  frontProxyLoad : Except Err (Bool × List Char × List Char)
deriving DecidableEq, Repr

/-- Model of `LoadAndSerializeAssets`: load the SA key pair and the front-proxy CA
pair, fail if any load fails or the certificate is not a CA, else marshal
the four PEM strings as the `SharedAssets` JSON payload. -/
def LoadAndSerializeAssets (env : LoadEnv) : Except Err (List Char) :=
  match env.saKeyLoad with
  | .error e => .error (.wrapped "SA private key could not be loaded properly" e)
  | .ok saKeyPem =>
    match env.saPubLoad with
    | .error e => .error (.wrapped "SA public key could not be loaded properly" e)
    | .ok saPubPem =>
      match env.frontProxyLoad with
      | .error _ =>
        .error (.other "Front proxy certificate and/or key existed but they could not be loaded properly")
      | .ok (isCA, certPem, keyPem) =>
        if !isCA then
          .error (.other "certificate and key could be loaded but the certificate is not a CA")
        else
          .ok (marshalSharedAssets
            { SaPub := saPubPem, SaKey := saKeyPem,
              FrontProxyCa := certPem, FrontProxyCaKey := keyPem })

/-! ## `kubeadm.SaveAssets` (`part_001`, lines 128–152) -/

/-- The four files `SaveAssets` writes, in source order. -/
inductive AssetFile where
  | saPub | saKey | frontProxyCaCert | frontProxyCaKey
deriving DecidableEq, Repr

/-- A performed `ioutil.WriteFile` call: target file and content written. -/
structure FileWrite where
  file : AssetFile
  content : List Char
deriving DecidableEq, Repr

/-- Outcomes the filesystem would give each of the four writes. -/
structure WriteEnv where
  wSaPub : Option Err
  wSaKey : Option Err
  wFpCert : Option Err
  wFpKey : Option Err
deriving DecidableEq, Repr

/-- Model of `SaveAssets`: unmarshal the payload — the source discards
the `json.Unmarshal` error, so a non-deserializable payload leaves the
zero-valued `SharedAssets{}` — then write the four PEM files in order,
returning the first write error (wrapped) or nil.  The returned list is the
trace of write calls performed. -/
def SaveAssets (w : WriteEnv) (assets : List Char) : List FileWrite × Option Err :=
  let sharedAssets := (unmarshalSharedAssets assets).getD default
  match w.wSaPub with
  | some e => ([⟨.saPub, sharedAssets.SaPub⟩],
      some (.wrapped "Service Account public key could not saved" e))
  | none =>
    match w.wSaKey with
    | some e => ([⟨.saPub, sharedAssets.SaPub⟩, ⟨.saKey, sharedAssets.SaKey⟩],
        some (.wrapped "Service Account private key could not saved" e))
    | none =>
      match w.wFpCert with
      | some e => ([⟨.saPub, sharedAssets.SaPub⟩, ⟨.saKey, sharedAssets.SaKey⟩,
          ⟨.frontProxyCaCert, sharedAssets.FrontProxyCa⟩],
          some (.wrapped "Front proxy public ca cert could not saved" e))
      | none =>
        match w.wFpKey with
        | some e => ([⟨.saPub, sharedAssets.SaPub⟩, ⟨.saKey, sharedAssets.SaKey⟩,
            ⟨.frontProxyCaCert, sharedAssets.FrontProxyCa⟩,
            ⟨.frontProxyCaKey, sharedAssets.FrontProxyCaKey⟩],
            some (.wrapped "Front proxy private key could not saved" e))
        | none => ([⟨.saPub, sharedAssets.SaPub⟩, ⟨.saKey, sharedAssets.SaKey⟩,
            ⟨.frontProxyCaCert, sharedAssets.FrontProxyCa⟩,
            ⟨.frontProxyCaKey, sharedAssets.FrontProxyCaKey⟩], none)

/-! ## `kmm.BootstrapOnce` (`part_000`, lines 195–224) -/

/-- The steps of the primary bootstrap sequence, as trace events. -/
inductive BootEvent where
  | createPKI
  | loadAndSerializeAssets
  | createKubeConfig
  | createAndStartKubelet
  | addons
  | installNetwork
  | tokensDeploy
deriving DecidableEq, Repr

/-- Outcomes of the external calls `BootstrapOnce` makes.  The asset load is
driven by its own `LoadEnv`; the remaining steps are opaque calls that
succeed or fail. -/
structure BootEnv where
  createPKI : Option Err
  loadEnv : LoadEnv
  createKubeConfig : Option Err
  createAndStartKubelet : Option Err
  addons : Option Err
  installNetwork : Option Err
  tokensDeploy : Option Err
deriving DecidableEq, Repr

/-- Model of `BootstrapOnce`, translated statement by statement.  Note the faithful
reproduction of the source handling of line 203: `assets, err =
k.Kubeadm.LoadAndSerializeAssets()` assigns `err` but the value is never
inspected — the next `if err = k.Kubeadm.CreateKubeConfig(); ...` overwrites
it — so a failed load leaves `assets` as the empty string and the sequence
continues. -/
def BootstrapOnce (env : BootEnv) : List BootEvent × Except Err (List Char) :=
  match env.createPKI with
  | some e => ([.createPKI], .error e)
  | none =>
    let assets : List Char :=
      match LoadAndSerializeAssets env.loadEnv with
      | .ok a => a
      | .error _ => []
    match env.createKubeConfig with
    | some e => ([.createPKI, .loadAndSerializeAssets, .createKubeConfig], .error e)
    | none =>
      match env.createAndStartKubelet with
      | some e => ([.createPKI, .loadAndSerializeAssets, .createKubeConfig,
          .createAndStartKubelet], .error e)
      | none =>
        match env.addons with
        | some e => ([.createPKI, .loadAndSerializeAssets, .createKubeConfig,
            .createAndStartKubelet, .addons], .error e)
        | none =>
          match env.installNetwork with
          | some e => ([.createPKI, .loadAndSerializeAssets, .createKubeConfig,
              .createAndStartKubelet, .addons, .installNetwork], .error e)
          | none =>
            match env.tokensDeploy with
            | some e => ([.createPKI, .loadAndSerializeAssets, .createKubeConfig,
                .createAndStartKubelet, .addons, .installNetwork, .tokensDeploy], .error e)
            | none => ([.createPKI, .loadAndSerializeAssets, .createKubeConfig,
                .createAndStartKubelet, .addons, .installNetwork, .tokensDeploy], .ok assets)

/-! ## `kmm.BootstrapSecondaryMaster` (`part_000`, lines 170–190) -/

/-- The steps of the secondary bootstrap sequence, as trace events.  The
first carries the file writes `SaveAssets` performed. -/
inductive SecEvent where
  | saveAssets (writes : List FileWrite)
  | createPKI
  | createKubeConfig
  | createAndStartKubelet
  | updateMasterRoleLabelsAndTaints
deriving DecidableEq, Repr

/-- Outcomes of the external calls `BootstrapSecondaryMaster` makes after
`SaveAssets`. -/
structure SecEnv where
  writeEnv : WriteEnv
  createPKI : Option Err
  createKubeConfig : Option Err
  createAndStartKubelet : Option Err
  updateMasterRoleLabelsAndTaints : Option Err
deriving DecidableEq, Repr

/-- Model of `BootstrapSecondaryMaster`: save the shared assets to disk, then the four
remaining steps, each checked in sequence. -/
def BootstrapSecondaryMaster (env : SecEnv) (assets : List Char) :
    List SecEvent × Option Err :=
  let (writes, saveErr) := SaveAssets env.writeEnv assets
  match saveErr with
  | some e => ([.saveAssets writes], some e)
  | none =>
    match env.createPKI with
    | some e => ([.saveAssets writes, .createPKI], some e)
    | none =>
      match env.createKubeConfig with
      | some e => ([.saveAssets writes, .createPKI, .createKubeConfig], some e)
      | none =>
        match env.createAndStartKubelet with
        | some e => ([.saveAssets writes, .createPKI, .createKubeConfig,
            .createAndStartKubelet], some e)
        | none =>
          match env.updateMasterRoleLabelsAndTaints with
          | some e => ([.saveAssets writes, .createPKI, .createKubeConfig,
              .createAndStartKubelet, .updateMasterRoleLabelsAndTaints], some e)
          | none => ([.saveAssets writes, .createPKI, .createKubeConfig,
              .createAndStartKubelet, .updateMasterRoleLabelsAndTaints], none)

/-! ## `kmm.CleanUp` (`part_000`, lines 227–243) -/

/-- Store deletions `CleanUp` can perform. -/
inductive CleanUpOp where
  | deleteLockKey
  | deleteAssetKey
deriving DecidableEq, Repr

/-- Outcomes the store would give each deletion. -/
structure CleanUpEnv where
  deleteLock : Option Err
  deleteAssets : Option Err
deriving DecidableEq, Repr

/-- Model of `CleanUp(releaseLock, deleteAssets)`: if `releaseLock`, delete the lock
key, returning its error on failure; then if `deleteAssets`, delete the
asset key, returning its error on failure; else nil.  The returned list is
the trace of deletions attempted. -/
def CleanUp (env : CleanUpEnv) (releaseLock deleteAssets : Bool) :
    List CleanUpOp × Option Err :=
  if releaseLock then
    match env.deleteLock with
    | some e => ([.deleteLockKey], some e)
    | none =>
      if deleteAssets then
        match env.deleteAssets with
        | some e => ([.deleteLockKey, .deleteAssetKey], some e)
        | none => ([.deleteLockKey, .deleteAssetKey], none)
      else ([.deleteLockKey], none)
  else
    if deleteAssets then
      match env.deleteAssets with
      | some e => ([.deleteAssetKey], some e)
      | none => ([.deleteAssetKey], none)
    else ([], none)

end KetoK8

namespace KetoK8

/-! ## The election loop: `kmm.New` and `kmm.CreateOrGetSharedAssets`
(`part_000`, lines 92–167) -/

/-- Constant `defaultBackOff = 20 * time.Second` (`part_000`, line 22), in seconds. -/
def defaultBackOff : Nat := 20

/-- Constant `defaultLockTTL = 120 * time.Second` (`part_000`, line 23), in seconds. -/
def defaultLockTTL : Nat := 120

/-- The coordination-relevant fields of `kmm.ConfigType`: the back-off wait
used on lock contention and the completion-gate flag.  (The remaining
fields — kubeadm configuration, cluster name, interface wiring — do not
influence the control flow of the election loop and are not modelled.)  Note
`ConfigType` carries no lock-TTL field at all. -/
structure ConfigType where
  MasterBackOffTime : Nat
  ExitOnCompletion : Bool
deriving DecidableEq, Repr

/-- Model of `kmm.New` (`part_000`, lines 92–104): unconditionally sets
`cfg.MasterBackOffTime = defaultBackOff` before wiring up the interfaces,
discarding whatever value the caller supplied. -/
def New (cfg : ConfigType) : ConfigType :=
  { cfg with MasterBackOffTime := defaultBackOff }

/-- Outcomes of the external calls one iteration of the election loop can
make.  `cleanUpResult` is the value `k.Kmm.CleanUp(true, false)` would
return; the source discards it (`part_000`, lines 135 and 141), so it does
not appear anywhere in the result of the iteration. -/
structure IterEnv where
  /-- Outcome of `k.Etcd.Get(assetKey)`: the payload, or `keyMissing`, or another error. -/
  get : Except Err (List Char)
  /-- Outcome of `k.Etcd.GetOrCreateLock(assetLockKey, defaultLockTTL)`. -/
  lock : Except Err Bool
  /-- Outcome of `k.BootstrapOnce()` (its internals are `BootstrapOnce` above). -/
  bootstrapOnce : Except Err (List Char)
  /-- Outcome of `k.Etcd.PutTx(assetKey, assets)` for the generated payload. -/
  putTx : List Char → Option Err
  /-- Outcome of `k.BootstrapSecondaryMaster(assets)` for the fetched payload. -/
  secondary : List Char → Option Err
  /-- Outcome of `k.Kmm.CleanUp(true, false)` — discarded by the source. -/
  cleanUpResult : Option Err

/-- Trace events of the election loop, in execution order. -/
inductive Ev where
  | getFound (assets : List Char)
  | getMissing
  | getErr (e : Err)
  | lockAttempt (ttlSeconds : Nat)
  | lockAcquired
  | lockContended
  | lockErr (e : Err)
  | bootstrapOnceOk (assets : List Char)
  | bootstrapOnceErr (e : Err)
  | putTxOk (assets : List Char)
  | putTxErr (assets : List Char) (e : Err)
  | cleanUpCalled (releaseLock deleteAssets : Bool)
  | sleep (seconds : Nat)
  | secondaryOk (assets : List Char)
  | secondaryErr (assets : List Char) (e : Err)
deriving DecidableEq, Repr

/-- Result of one execution of the loop body: return to the caller (with
`none` for the `break` paths, `some e` for the error paths), or fall through
to the next iteration after the back-off sleep. -/
inductive IterResult where
  | ret (e : Option Err)
  | again
deriving DecidableEq, Repr

/-- One iteration of the `for true` loop of `CreateOrGetSharedAssets`
(`part_000`, lines 121–158), translated branch by branch:
`Get` missing → `GetOrCreateLock` with the `defaultLockTTL` constant →
if acquired, `BootstrapOnce`, on failure `CleanUp(true, false)` and return
the bootstrap error; else `PutTx`, on failure `CleanUp(true, false)` and
return that error; else break.  If the lock is contended, sleep
`k.MasterBackOffTime` and iterate.  A non-missing `Get` error returns
immediately; a present record runs `BootstrapSecondaryMaster` and breaks on
success. -/
def iter (cfg : ConfigType) (env : IterEnv) : List Ev × IterResult :=
  match env.get with
  | .error .keyMissing =>
    match env.lock with
    | .error e => ([.getMissing, .lockAttempt defaultLockTTL, .lockErr e], .ret (some e))
    | .ok true =>
      match env.bootstrapOnce with
      | .error e =>
        ([.getMissing, .lockAttempt defaultLockTTL, .lockAcquired,
          .bootstrapOnceErr e, .cleanUpCalled true false], .ret (some e))
      | .ok assets =>
        match env.putTx assets with
        | some e =>
          ([.getMissing, .lockAttempt defaultLockTTL, .lockAcquired,
            .bootstrapOnceOk assets, .putTxErr assets e, .cleanUpCalled true false],
            .ret (some e))
        | none =>
          ([.getMissing, .lockAttempt defaultLockTTL, .lockAcquired,
            .bootstrapOnceOk assets, .putTxOk assets], .ret none)
    | .ok false =>
      ([.getMissing, .lockAttempt defaultLockTTL, .lockContended,
        .sleep cfg.MasterBackOffTime], .again)
  | .error e => ([.getErr e], .ret (some e))
  | .ok assets =>
    match env.secondary assets with
    | some e => ([.getFound assets, .secondaryErr assets e], .ret (some e))
    | none => ([.getFound assets, .secondaryOk assets], .ret none)

/-- Result of running the loop for a bounded number of iterations. -/
inductive RunResult where
  | ret (e : Option Err)
  | outOfFuel
deriving DecidableEq, Repr

/-- The `for true` loop itself: iterate `iter`, accumulating the trace, with
`envs n` the outcomes the externals would give the n-th iteration.  `fuel`
bounds how many iterations we observe (the source loop is unbounded). -/
def run (cfg : ConfigType) (envs : Nat → IterEnv) : Nat → List Ev × RunResult
  | 0 => ([], .outOfFuel)
  | fuel + 1 =>
    match iter cfg (envs 0) with
    | (evs, .ret e) => (evs, .ret e)
    | (evs, .again) =>
      let r := run cfg (fun i => envs (i + 1)) fuel
      (evs ++ r.1, r.2)

/-- How `CreateOrGetSharedAssets` can end: return an error to the caller,
return nil, or (when `ExitOnCompletion` is unset) never return.  The keep-alive
in the source is the busy loop `for true {}` (`part_000`, lines 163–165); a
parked wait (blocking on a never-resolved signal) is a distinct behavior
listed here so the two can be told apart. -/
inductive Outcome where
  | returns (e : Option Err)
  | busySpinForever
  | parkedWaitForever
  | outOfFuel
deriving DecidableEq, Repr

/-- The completion gate (`part_000`, lines 162–166): after a successful
bootstrap, return nil if `ExitOnCompletion`, else spin in `for true {}`. -/
def completionGate (exitOnCompletion : Bool) : Outcome :=
  if exitOnCompletion then .returns none else .busySpinForever

/-- Outcomes of the three calls `CreateOrGetSharedAssets` makes before the
election loop (`part_000`, lines 110–118). -/
structure PreEnv where
  updateCloudCfg : Option Err
  copyKubeCa : Option Err
  writeManifests : Option Err
deriving DecidableEq, Repr

/-- Model of `CreateOrGetSharedAssets`: the three pre-loop steps, the election loop,
then the completion gate.  Loop errors return from inside the loop and never
reach the gate. -/
def CreateOrGetSharedAssets (cfg : ConfigType) (pre : PreEnv) (envs : Nat → IterEnv)
    (fuel : Nat) : Outcome :=
  match pre.updateCloudCfg with
  | some e => .returns (some e)
  | none =>
    match pre.copyKubeCa with
    | some e => .returns (some e)
    | none =>
      match pre.writeManifests with
      | some e => .returns (some e)
      | none =>
        match (run cfg envs fuel).2 with
        | .ret (some e) => .returns (some e)
        | .ret none => completionGate cfg.ExitOnCompletion
        | .outOfFuel => .outOfFuel

/-! ## `kmm.stringToMap` (`part_000`, lines 323–342) -/

/-- The separator predicate of `stringToMap`: `c == '=' || c == ' '`. -/
def isKubeArgSep (c : Char) : Bool :=
  c == '=' || c == ' '

/-- Model of `strings.FieldsFunc`, Go-style: scan the string collecting the maximal
runs of characters on which `f` is false; `cur` is the current run,
accumulated in reverse. -/
def fieldsFuncAux (f : Char → Bool) : List Char → List Char → List (List Char)
  | cur, [] => if cur.isEmpty then [] else [cur.reverse]
  | cur, c :: rest =>
    if f c then
      if cur.isEmpty then fieldsFuncAux f [] rest
      else cur.reverse :: fieldsFuncAux f [] rest
    else fieldsFuncAux f (c :: cur) rest

/-- Model of `strings.FieldsFunc(s, f)`. -/
def fieldsFunc (f : Char → Bool) (s : List Char) : List (List Char) :=
  fieldsFuncAux f [] s

/-- A Go `map[string]string`, as the partial lookup function it denotes. -/
def GoMap : Type := List Char → Option (List Char)

/-- Go map assignment `m[k] = v`: later assignments overwrite earlier ones. -/
def mapAssign (m : GoMap) (k v : List Char) : GoMap :=
  fun x => if x = k then some v else m x

/-- The empty Go map (`map[string]string{}`). -/
def emptyGoMap : GoMap := fun _ => none

/-- Model of `stringToMap`: split the argument string on commas with `strings.Split`,
split each item into fields with `strings.FieldsFunc` at `=` and space, and
assign `argsMap[fields[0]] = fields[1]` for two-field items and
`argsMap[fields[0]] = ""` for one-field items; other items assign nothing. -/
def stringToMap (args : List Char) : GoMap :=
  (args.splitOn ',').foldl
    (fun argsMap arg =>
      match fieldsFunc isKubeArgSep arg with
      | [a, b] => mapAssign argsMap a b
      | [a] => mapAssign argsMap a []
      | _ => argsMap)
    emptyGoMap

end KetoK8

namespace KetoK8

/-! ## Round-trip of the `SharedAssets` JSON codec -/

/-- Decoding a hexadecimal digit the encoder emitted recovers its value. -/
lemma hexVal_hexDigitChar : ∀ n < 16, hexVal (hexDigitChar n) = some n := by decide

/-- Decoding the zero digit. -/
lemma hexVal_zero : hexVal '0' = some 0 := by decide

/-- The string-body decoder undoes one emitted escape. -/
lemma parseStringBody_escapeChar (c : Char) (t : List Char) :
    parseStringBody (escapeChar c ++ t) =
      (parseStringBody t).map fun p => (c :: p.1, p.2) := by
  by_cases h1 : c = '"'
  · subst h1; simp [escapeChar, parseStringBody, unescapeShort]
  by_cases h2 : c = '\\'
  · subst h2; simp [escapeChar, parseStringBody, unescapeShort]
  by_cases h3 : c = '\n'
  · subst h3; simp [escapeChar, parseStringBody, unescapeShort]
  by_cases h4 : c = '\r'
  · subst h4; simp [escapeChar, parseStringBody, unescapeShort]
  by_cases h5 : c = '\t'
  · subst h5; simp [escapeChar, parseStringBody, unescapeShort]
  by_cases h6 : c.toNat < 0x20 ∨ c = '<' ∨ c = '>' ∨ c = '&'
  · have hle : c.toNat ≤ 62 := by
      rcases h6 with h | h | h | h
      · omega
      all_goals subst h; decide
    have hdiv : c.toNat / 16 < 16 := by omega
    have hmod : c.toNat % 16 < 16 := by omega
    have hvalid : Nat.isValidChar c.toNat := Or.inl (by omega)
    have hc : codePointChar (c.toNat / 16 * 16 + c.toNat % 16) = c := by
      have hn : c.toNat / 16 * 16 + c.toNat % 16 = c.toNat := by omega
      rw [hn, codePointChar, if_pos hvalid, Char.ofNat_toNat]
    simp [escapeChar, h1, h2, h3, h4, h5, h6, parseStringBody,
      hexVal_hexDigitChar _ hdiv, hexVal_hexDigitChar _ hmod, hexVal_zero, hc]
  push_neg at h6
  obtain ⟨h6a, h6b, h6c, h6d⟩ := h6
  by_cases h7 : c.toNat = 0x2028 ∨ c.toNat = 0x2029
  · rcases h7 with h | h
    · have h8 : Char.ofNat 8232 = c := by rw [← h]; exact Char.ofNat_toNat c
      simp [escapeChar, h1, h2, h3, h4, h5, h6a, h6b, h6c, h6d, h, parseStringBody,
        hexVal, hexDigitChar, codePointChar, Nat.isValidChar, h8]
    · have h8 : Char.ofNat 8233 = c := by rw [← h]; exact Char.ofNat_toNat c
      simp [escapeChar, h1, h2, h3, h4, h5, h6a, h6b, h6c, h6d, h, parseStringBody,
        hexVal, hexDigitChar, codePointChar, Nat.isValidChar, h8]
  · rw [show escapeChar c = [c] by
      simp [escapeChar, h1, h2, h3, h4, h5, h6a, h6b, h6c, h6d, h7]]
    rw [List.cons_append, List.nil_append, parseStringBody.eq_def]
    simp [h1, h2]

/-- The string-body decoder undoes the escaped content up to the closing
quote. -/
lemma parseStringBody_flatMap (s rest : List Char) :
    parseStringBody (s.flatMap escapeChar ++ '"' :: rest) = some (s, rest) := by
  induction s with
  | nil =>
    rw [List.flatMap_nil, List.nil_append, parseStringBody.eq_def]
    simp
  | cons c s ih =>
    rw [List.flatMap_cons, List.append_assoc, parseStringBody_escapeChar, ih]
    rfl

/-- The string-literal decoder undoes `encStr`. -/
lemma parseJString_encStr (s t : List Char) :
    parseJString (encStr s ++ t) = some (s, t) := by
  have h : encStr s ++ t = '"' :: (s.flatMap escapeChar ++ '"' :: t) := by
    simp [encStr]
  rw [h]
  simp [parseJString, parseStringBody_flatMap]

end KetoK8

namespace KetoK8

/-- Encoding of a non-empty member list, as the marshaller lays it out:
`"key":"value"` pairs joined by commas. -/
def encMembers : List (List Char × List Char) → List Char
  | [] => []
  | [(k, v)] => encStr k ++ ':' :: encStr v
  | (k, v) :: rest => encStr k ++ ':' :: encStr v ++ ',' :: encMembers rest

/-- A single member encodes as key, colon, value. -/
lemma encMembers_single (k v : List Char) :
    encMembers [(k, v)] = encStr k ++ ':' :: encStr v := rfl

/-- Further members follow after a comma. -/
lemma encMembers_cons (k v : List Char) (kv2 : List Char × List Char)
    (rest2 : List (List Char × List Char)) :
    encMembers ((k, v) :: kv2 :: rest2)
      = encStr k ++ ':' :: (encStr v ++ ',' :: encMembers (kv2 :: rest2)) := by
  simp [encMembers, List.cons_append, List.append_assoc]

/-- Lemma: `skipWs` is the identity on input starting with a string literal. -/
lemma skipWs_encStr (s t : List Char) : skipWs (encStr s ++ t) = encStr s ++ t := by
  simp [encStr, skipWs, List.cons_append, List.dropWhile, isJsonWs]

/-- Lemma: `skipWs` is the identity on input starting with a colon. -/
lemma skipWs_colon (t : List Char) : skipWs (':' :: t) = ':' :: t := rfl

/-- Lemma: `skipWs` is the identity on input starting with a comma. -/
lemma skipWs_comma (t : List Char) : skipWs (',' :: t) = ',' :: t := rfl

/-- Lemma: `skipWs` is the identity on input starting with a closing brace. -/
lemma skipWs_rbrace (t : List Char) : skipWs ('}' :: t) = '}' :: t := rfl

/-- The member decoder undoes `encMembers` on any non-empty member list,
given fuel at least the number of members. -/
lemma parseMembers_encMembers :
    ∀ (kvs : List (List Char × List Char)) (fuel : Nat) (tail : List Char),
      kvs ≠ [] → kvs.length ≤ fuel →
      parseMembers fuel (encMembers kvs ++ '}' :: tail) = some (kvs, tail) := by
  intro kvs
  induction kvs with
  | nil => intro fuel tail hne _; exact absurd rfl hne
  | cons kv rest ih =>
    intro fuel tail _ hf
    obtain ⟨k, v⟩ := kv
    cases fuel with
    | zero => simp at hf
    | succ fuel =>
      cases rest with
      | nil =>
        rw [encMembers_single, List.append_assoc, List.cons_append]
        simp only [parseMembers, parseJString_encStr, skipWs_colon, skipWs_encStr,
          skipWs_rbrace]
        simp
      | cons kv2 rest2 =>
        rw [encMembers_cons, List.append_assoc, List.cons_append, List.append_assoc,
          List.cons_append]
        simp only [parseMembers, parseJString_encStr, skipWs_colon, skipWs_encStr,
          skipWs_comma]
        have hsk : skipWs (encMembers (kv2 :: rest2) ++ '}' :: tail)
            = encMembers (kv2 :: rest2) ++ '}' :: tail := by
          obtain ⟨k2, v2⟩ := kv2
          cases rest2 with
          | nil => rw [encMembers_single, List.append_assoc, List.cons_append, skipWs_encStr]
          | cons kv3 rest3 =>
            rw [encMembers_cons, List.append_assoc, List.cons_append, skipWs_encStr]
        rw [hsk, ih fuel tail (by simp) (by simp only [List.length_cons] at hf ⊢; omega)]
        simp

end KetoK8

namespace KetoK8

/-- A string literal is at least the two quotes long. -/
lemma encStr_len (s : List Char) : 2 ≤ (encStr s).length := by
  simp [encStr]

/-- An encoded member list is at least as long as the member count. -/
lemma length_encMembers : ∀ kvs : List (List Char × List Char),
    kvs.length ≤ (encMembers kvs).length := by
  intro kvs
  induction kvs with
  | nil => simp [encMembers]
  | cons kv rest ih =>
    obtain ⟨k, v⟩ := kv
    cases rest with
    | nil =>
      rw [encMembers_single]
      have h1 := encStr_len k
      simp [List.length_append]
      omega
    | cons kv2 rest2 =>
      rw [encMembers_cons]
      have h1 := encStr_len k
      have h2 := encStr_len v
      simp only [List.length_cons, List.length_append] at ih ⊢
      omega

/-- The four members of the marshalled `SharedAssets` object, in the order
`encoding/json` emits them. -/
def assetMembers (a : SharedAssets) : List (List Char × List Char) :=
  [("FrontProxyCa".data, a.FrontProxyCa), ("FrontProxyCaKey".data, a.FrontProxyCaKey),
   ("SaPub".data, a.SaPub), ("SaKey".data, a.SaKey)]

/-- The marshalled object is the brace-wrapped encoding of its members. -/
lemma marshal_eq (a : SharedAssets) :
    marshalSharedAssets a = '{' :: (encMembers (assetMembers a) ++ '}' :: []) := by
  simp [marshalSharedAssets, encMembers, assetMembers, List.cons_append, List.append_assoc]

/-- The object decoder recovers the members of a marshalled bundle. -/
lemma parseObj_marshal (a : SharedAssets) :
    parseObj (marshalSharedAssets a) = some (assetMembers a, []) := by
  rw [marshal_eq]
  have hred : parseObj ('{' :: (encMembers (assetMembers a) ++ '}' :: []))
      = parseMembers ((encMembers (assetMembers a) ++ '}' :: []).length + 1)
          (encMembers (assetMembers a) ++ '}' :: []) := rfl
  have hlen : (assetMembers a).length
      ≤ (encMembers (assetMembers a) ++ '}' :: []).length + 1 := by
    have h := length_encMembers (assetMembers a)
    simp only [List.length_append] at h ⊢
    omega
  rw [hred, parseMembers_encMembers _ _ _ (by simp [assetMembers]) hlen]

/-- Assigning the decoded members rebuilds the original bundle. -/
lemma applyFields_assetMembers (a : SharedAssets) :
    applyFields default (assetMembers a) = a := by
  cases a
  rfl

/-- Unmarshalling inverts marshalling on every `SharedAssets` bundle. -/
lemma unmarshal_marshal (a : SharedAssets) :
    unmarshalSharedAssets (marshalSharedAssets a) = some a := by
  simp [unmarshalSharedAssets, parseObj_marshal, applyFields_assetMembers, skipWs]

end KetoK8

namespace KetoK8

/-! ## `fieldsFunc` agrees with split-and-drop-empties -/

/-- On a field-free list (no separator), the split is the single piece. -/
lemma splitOnP_all_nonsep (f : Char → Bool) :
    ∀ l : List Char, (∀ a ∈ l, f a = false) → l.splitOnP f = [l] := by
  intro l
  induction l with
  | nil => intro _; simp [List.splitOnP_nil]
  | cons a l ih =>
    intro h
    rw [List.splitOnP_cons, if_neg (by simp [h a (by simp)]), ih (fun x hx => h x (by simp [hx]))]
    simp

/-- Splitting after a separator-free prefix splits the tail and glues the
prefix onto the first piece. -/
lemma splitOnP_append_nonsep (f : Char → Bool) :
    ∀ (l t : List Char), (∀ a ∈ l, f a = false) →
      (l ++ t).splitOnP f = (t.splitOnP f).modifyHead (l ++ ·) := by
  intro l
  induction l with
  | nil =>
    intro t _
    cases h : t.splitOnP f with
    | nil => simp [h]
    | cons x xs => simp [h]
  | cons a l ih =>
    intro t h
    rw [List.cons_append, List.splitOnP_cons, if_neg (by simp [h a (by simp)]),
      ih t (fun x hx => h x (by simp [hx]))]
    cases t.splitOnP f with
    | nil => simp
    | cons x xs => simp

/-- The Go span-scanning `fieldsFunc`, with a separator-free accumulated
field, is split-then-drop-empties of the rebuilt input. -/
lemma fieldsFuncAux_eq (f : Char → Bool) :
    ∀ (s cur : List Char), (∀ a ∈ cur, f a = false) →
      fieldsFuncAux f cur s
        = ((cur.reverse ++ s).splitOnP f).filter (fun x => !x.isEmpty) := by
  intro s
  induction s with
  | nil =>
    intro cur h
    rw [fieldsFuncAux, List.append_nil,
      splitOnP_all_nonsep f cur.reverse (fun x hx => h x (by simpa using hx))]
    cases cur <;> simp
  | cons c s ih =>
    intro cur h
    by_cases hc : f c = true
    · rw [fieldsFuncAux, if_pos hc,
        splitOnP_append_nonsep f cur.reverse (c :: s) (fun x hx => h x (by simpa using hx)),
        List.splitOnP_cons, if_pos hc]
      rw [List.modifyHead_cons, ih [] (by simp)]
      cases hcur : cur.isEmpty
      · have : ¬cur.reverse.isEmpty := by
          cases cur
          · simp at hcur
          · simp
        simp [this]
      · have : cur.reverse.isEmpty := by
          cases cur
          · simp
          · simp at hcur
        simp [this]
    · have hc' : f c = false := by simpa using hc
      have hcc : ∀ x ∈ c :: cur, f x = false := by
        intro x hx
        rcases List.mem_cons.mp hx with h1 | h1
        · rw [h1]; exact hc'
        · exact h x h1
      rw [fieldsFuncAux, if_neg (by simp [hc']), ih (c :: cur) hcc]
      have hre : (c :: cur).reverse ++ s = cur.reverse ++ c :: s := by
        simp
      rw [hre]

/-- Lemma: `fieldsFunc f` computes the non-empty pieces of the split at `f`. -/
lemma fieldsFunc_splitOnP (f : Char → Bool) (s : List Char) :
    fieldsFunc f s = (s.splitOnP f).filter (fun x => !x.isEmpty) := by
  have h := fieldsFuncAux_eq f s [] (by simp)
  simpa [fieldsFunc] using h

end KetoK8

namespace KetoK8

/-! ## Shape of election-loop traces

Every iteration either backs off (a fixed contended block) or terminates the
loop with one of seven terminal event patterns; a whole run is a sequence of
contended blocks followed by at most one terminal pattern. -/

/-- The events of one contended iteration: record missing, lock attempted
with the constant TTL, contention, back-off sleep. -/
def ContBlock (cfg : ConfigType) : List Ev :=
  [.getMissing, .lockAttempt defaultLockTTL, .lockContended, .sleep cfg.MasterBackOffTime]

/-- Traces made only of contended iterations. -/
inductive Contended (cfg : ConfigType) : List Ev → Prop
  | nil : Contended cfg []
  | cons (t : List Ev) : Contended cfg t → Contended cfg (ContBlock cfg ++ t)

/-- The seven ways an iteration can terminate the loop, with the events it
emits and the value returned to the caller. -/
inductive Terminal (cfg : ConfigType) : List Ev → Option Err → Prop
  | getErrOther (e : Err) (hne : e ≠ .keyMissing) :
      Terminal cfg [.getErr e] (some e)
  | secondaryFail (a : List Char) (e : Err) :
      Terminal cfg [.getFound a, .secondaryErr a e] (some e)
  | secondaryDone (a : List Char) :
      Terminal cfg [.getFound a, .secondaryOk a] none
  | lockFail (e : Err) :
      Terminal cfg [.getMissing, .lockAttempt defaultLockTTL, .lockErr e] (some e)
  | bootFail (e : Err) :
      Terminal cfg [.getMissing, .lockAttempt defaultLockTTL, .lockAcquired,
        .bootstrapOnceErr e, .cleanUpCalled true false] (some e)
  | putFail (a : List Char) (e : Err) :
      Terminal cfg [.getMissing, .lockAttempt defaultLockTTL, .lockAcquired,
        .bootstrapOnceOk a, .putTxErr a e, .cleanUpCalled true false] (some e)
  | putDone (a : List Char) :
      Terminal cfg [.getMissing, .lockAttempt defaultLockTTL, .lockAcquired,
        .bootstrapOnceOk a, .putTxOk a] none

/-- Each iteration either emits the contended block and loops, or returns
with a terminal pattern. -/
lemma iter_cases (cfg : ConfigType) (env : IterEnv) :
    iter cfg env = (ContBlock cfg, .again) ∨
    ∃ evs e, iter cfg env = (evs, .ret e) ∧ Terminal cfg evs e := by
  cases hg : env.get with
  | error e =>
    cases e with
    | keyMissing =>
      cases hl : env.lock with
      | error el =>
        refine Or.inr ⟨_, _, ?_, .lockFail el⟩
        simp [iter, hg, hl]
      | ok b =>
        cases b with
        | true =>
          cases hb : env.bootstrapOnce with
          | error eb =>
            refine Or.inr ⟨_, _, ?_, .bootFail eb⟩
            simp [iter, hg, hl, hb]
          | ok assets =>
            cases hp : env.putTx assets with
            | none =>
              refine Or.inr ⟨_, _, ?_, .putDone assets⟩
              simp [iter, hg, hl, hb, hp]
            | some ep =>
              refine Or.inr ⟨_, _, ?_, .putFail assets ep⟩
              simp [iter, hg, hl, hb, hp]
        | false =>
          refine Or.inl ?_
          simp [iter, hg, hl, ContBlock]
    | other s =>
      refine Or.inr ⟨_, _, ?_, .getErrOther (.other s) (by simp)⟩
      simp [iter, hg]
    | wrapped s e2 =>
      refine Or.inr ⟨_, _, ?_, .getErrOther (.wrapped s e2) (by simp)⟩
      simp [iter, hg]
  | ok a =>
    cases hs : env.secondary a with
    | none =>
      refine Or.inr ⟨_, _, ?_, .secondaryDone a⟩
      simp [iter, hg, hs]
    | some es =>
      refine Or.inr ⟨_, _, ?_, .secondaryFail a es⟩
      simp [iter, hg, hs]

/-- A bounded run is contended blocks followed by at most one terminal
pattern. -/
lemma run_shape (cfg : ConfigType) :
    ∀ (fuel : Nat) (envs : Nat → IterEnv) (tr : List Ev) (res : RunResult),
      run cfg envs fuel = (tr, res) →
      (res = .outOfFuel ∧ Contended cfg tr) ∨
      ∃ pre last e, tr = pre ++ last ∧ res = .ret e ∧
        Contended cfg pre ∧ Terminal cfg last e := by
  intro fuel
  induction fuel with
  | zero =>
    intro envs tr res h
    simp only [run] at h
    injection h with h1 h2
    subst h1
    subst h2
    exact Or.inl ⟨rfl, .nil⟩
  | succ n ih =>
    intro envs tr res h
    simp only [run] at h
    rcases iter_cases cfg (envs 0) with hit | ⟨evs, e, hit, hterm⟩
    · rw [hit] at h
      rcases hrun : run cfg (fun i => envs (i + 1)) n with ⟨tr2, res2⟩
      rw [hrun] at h
      injection h with h1 h2
      subst h1
      subst h2
      rcases ih (fun i => envs (i + 1)) tr2 res2 hrun with ⟨hres, hcont⟩ |
        ⟨pre, last, e, htr, hres, hcont, hterm⟩
      · exact Or.inl ⟨hres, .cons tr2 hcont⟩
      · refine Or.inr ⟨ContBlock cfg ++ pre, last, e, ?_, hres, .cons pre hcont, hterm⟩
        rw [htr, List.append_assoc]
    · rw [hit] at h
      injection h with h1 h2
      subst h1
      subst h2
      exact Or.inr ⟨[], evs, e, by simp, rfl, .nil, hterm⟩

/-- Contended traces hold only the four contention events. -/
lemma contended_mem (cfg : ConfigType) {t : List Ev} (hc : Contended cfg t) :
    ∀ ev ∈ t, ev = Ev.getMissing ∨ ev = Ev.lockAttempt defaultLockTTL ∨
      ev = Ev.lockContended ∨ ev = Ev.sleep cfg.MasterBackOffTime := by
  induction hc with
  | nil => simp
  | cons t2 ht ih =>
    intro ev hev
    rcases List.mem_append.mp hev with h | h
    · simp only [ContBlock, List.mem_cons, List.mem_singleton] at h
      rcases h with h | h | h | h
      · exact Or.inl h
      · exact Or.inr (Or.inl h)
      · exact Or.inr (Or.inr (Or.inl h))
      · rcases h with h | h
        · exact Or.inr (Or.inr (Or.inr h))
        · simp at h
    · exact ih ev h

end KetoK8

namespace KetoK8

/-- C1: whenever the primary path fails after the lock was acquired — the
bootstrap itself fails, or the subsequent `PutTx` publication fails — the run
returns exactly the original triggering error (the discarded `CleanUp`
outcome never replaces it), the last thing done before returning is
`CleanUp(releaseLock = true, deleteAssets = false)`, and no successful
asset-key write occurs anywhere in the run. -/
theorem c1_cleanup_on_primary_failure (cfg : ConfigType) (envs : Nat → IterEnv)
    (fuel : Nat) (tr : List Ev) (res : RunResult) (h : run cfg envs fuel = (tr, res)) :
    (∀ e : Err, Ev.bootstrapOnceErr e ∈ tr →
      res = .ret (some e) ∧
      (∃ t, tr = t ++ [Ev.bootstrapOnceErr e, Ev.cleanUpCalled true false]) ∧
      ∀ a, Ev.putTxOk a ∉ tr) ∧
    (∀ (a : List Char) (e : Err), Ev.putTxErr a e ∈ tr →
      res = .ret (some e) ∧
      (∃ t, tr = t ++ [Ev.putTxErr a e, Ev.cleanUpCalled true false]) ∧
      ∀ b, Ev.putTxOk b ∉ tr) := by
  rcases run_shape cfg fuel envs tr res h with ⟨hres, hcont⟩ |
    ⟨pre, last, e0, htr, hres, hcont, hterm⟩
  · constructor
    · intro e hmem
      have hc := contended_mem cfg hcont _ hmem
      simp at hc
    · intro a e hmem
      have hc := contended_mem cfg hcont _ hmem
      simp at hc
  · subst htr
    subst hres
    constructor
    · intro e hmem
      rcases List.mem_append.mp hmem with hm | hm
      · have hc := contended_mem cfg hcont _ hm
        simp at hc
      · cases hterm with
        | getErrOther e2 hne => simp at hm
        | secondaryFail a2 e2 => simp at hm
        | secondaryDone a2 => simp at hm
        | lockFail e2 => simp at hm
        | putFail a2 e2 => simp at hm
        | putDone a2 => simp at hm
        | bootFail e2 =>
          simp at hm
          subst hm
          refine ⟨rfl,
            ⟨pre ++ [.getMissing, .lockAttempt defaultLockTTL, .lockAcquired], by simp⟩, ?_⟩
          intro a hma
          rcases List.mem_append.mp hma with hx | hx
          · have hc := contended_mem cfg hcont _ hx
            simp at hc
          · simp at hx
    · intro a e hmem
      rcases List.mem_append.mp hmem with hm | hm
      · have hc := contended_mem cfg hcont _ hm
        simp at hc
      · cases hterm with
        | getErrOther e2 hne => simp at hm
        | secondaryFail a2 e2 => simp at hm
        | secondaryDone a2 => simp at hm
        | lockFail e2 => simp at hm
        | bootFail e2 => simp at hm
        | putDone a2 => simp at hm
        | putFail a2 e2 =>
          simp at hm
          obtain ⟨rfl, rfl⟩ := hm
          refine ⟨rfl,
            ⟨pre ++ [.getMissing, .lockAttempt defaultLockTTL, .lockAcquired,
              .bootstrapOnceOk a], by simp⟩, ?_⟩
          intro b hmb
          rcases List.mem_append.mp hmb with hx | hx
          · have hc := contended_mem cfg hcont _ hx
            simp at hc
          · simp at hx

/-- C4: in every run of the election loop, the secondary bootstrap executes
only immediately after a store get returned a present asset record (with that
very payload), and a `PutTx` of the asset key is attempted only immediately
after `BootstrapOnce` returned successfully with that very payload. -/
theorem c4_order_invariant (cfg : ConfigType) (envs : Nat → IterEnv)
    (fuel : Nat) (tr : List Ev) (res : RunResult) (h : run cfg envs fuel = (tr, res)) :
    (∀ a, Ev.secondaryOk a ∈ tr →
      ∃ l1 l2, tr = l1 ++ Ev.getFound a :: Ev.secondaryOk a :: l2) ∧
    (∀ a e, Ev.secondaryErr a e ∈ tr →
      ∃ l1 l2, tr = l1 ++ Ev.getFound a :: Ev.secondaryErr a e :: l2) ∧
    (∀ a, Ev.putTxOk a ∈ tr →
      ∃ l1 l2, tr = l1 ++ Ev.bootstrapOnceOk a :: Ev.putTxOk a :: l2) ∧
    (∀ a e, Ev.putTxErr a e ∈ tr →
      ∃ l1 l2, tr = l1 ++ Ev.bootstrapOnceOk a :: Ev.putTxErr a e :: l2) := by
  rcases run_shape cfg fuel envs tr res h with ⟨hres, hcont⟩ |
    ⟨pre, last, e0, htr, hres, hcont, hterm⟩
  · refine ⟨?_, ?_, ?_, ?_⟩
    · intro a hmem
      have hc := contended_mem cfg hcont _ hmem
      simp at hc
    · intro a e hmem
      have hc := contended_mem cfg hcont _ hmem
      simp at hc
    · intro a hmem
      have hc := contended_mem cfg hcont _ hmem
      simp at hc
    · intro a e hmem
      have hc := contended_mem cfg hcont _ hmem
      simp at hc
  · subst htr
    refine ⟨?_, ?_, ?_, ?_⟩
    · intro a hmem
      rcases List.mem_append.mp hmem with hm | hm
      · have hc := contended_mem cfg hcont _ hm
        simp at hc
      · cases hterm with
        | getErrOther e2 hne => simp at hm
        | secondaryFail a2 e2 => simp at hm
        | lockFail e2 => simp at hm
        | bootFail e2 => simp at hm
        | putFail a2 e2 => simp at hm
        | putDone a2 => simp at hm
        | secondaryDone a2 =>
          simp at hm
          subst hm
          exact ⟨pre, [], by simp⟩
    · intro a e hmem
      rcases List.mem_append.mp hmem with hm | hm
      · have hc := contended_mem cfg hcont _ hm
        simp at hc
      · cases hterm with
        | getErrOther e2 hne => simp at hm
        | secondaryDone a2 => simp at hm
        | lockFail e2 => simp at hm
        | bootFail e2 => simp at hm
        | putFail a2 e2 => simp at hm
        | putDone a2 => simp at hm
        | secondaryFail a2 e2 =>
          simp at hm
          obtain ⟨rfl, rfl⟩ := hm
          exact ⟨pre, [], by simp⟩
    · intro a hmem
      rcases List.mem_append.mp hmem with hm | hm
      · have hc := contended_mem cfg hcont _ hm
        simp at hc
      · cases hterm with
        | getErrOther e2 hne => simp at hm
        | secondaryDone a2 => simp at hm
        | secondaryFail a2 e2 => simp at hm
        | lockFail e2 => simp at hm
        | bootFail e2 => simp at hm
        | putFail a2 e2 => simp at hm
        | putDone a2 =>
          simp at hm
          subst hm
          exact ⟨pre ++ [.getMissing, .lockAttempt defaultLockTTL, .lockAcquired], [], by simp⟩
    · intro a e hmem
      rcases List.mem_append.mp hmem with hm | hm
      · have hc := contended_mem cfg hcont _ hm
        simp at hc
      · cases hterm with
        | getErrOther e2 hne => simp at hm
        | secondaryDone a2 => simp at hm
        | secondaryFail a2 e2 => simp at hm
        | lockFail e2 => simp at hm
        | bootFail e2 => simp at hm
        | putDone a2 => simp at hm
        | putFail a2 e2 =>
          simp at hm
          obtain ⟨rfl, rfl⟩ := hm
          exact ⟨pre ++ [.getMissing, .lockAttempt defaultLockTTL, .lockAcquired],
            [.cleanUpCalled true false], by simp⟩

/-- C5: a get that observes the distinguished missing-key sentinel never
itself ends the loop — the iteration proceeds into the election branch
(lock attempt next) — while a get returning any other store error ends the
run at once: that error is the result and the trace stops at that get, with
no back-off and no further iteration. -/
theorem c5_error_classification (cfg : ConfigType) :
    (∀ env : IterEnv, env.get = .error .keyMissing →
      ∃ tail r, iter cfg env = (Ev.getMissing :: Ev.lockAttempt defaultLockTTL :: tail, r)) ∧
    (∀ (envs : Nat → IterEnv) (fuel : Nat) (tr : List Ev) (res : RunResult) (e : Err),
      run cfg envs fuel = (tr, res) → Ev.getErr e ∈ tr →
      res = .ret (some e) ∧ ∃ t, tr = t ++ [Ev.getErr e]) := by
  constructor
  · intro env hg
    cases hl : env.lock with
    | error el =>
      exact ⟨[.lockErr el], .ret (some el), by simp [iter, hg, hl]⟩
    | ok b =>
      cases b with
      | false =>
        exact ⟨[.lockContended, .sleep cfg.MasterBackOffTime], .again, by simp [iter, hg, hl]⟩
      | true =>
        cases hb : env.bootstrapOnce with
        | error eb =>
          exact ⟨[.lockAcquired, .bootstrapOnceErr eb, .cleanUpCalled true false],
            .ret (some eb), by simp [iter, hg, hl, hb]⟩
        | ok assets =>
          cases hp : env.putTx assets with
          | none =>
            exact ⟨[.lockAcquired, .bootstrapOnceOk assets, .putTxOk assets],
              .ret none, by simp [iter, hg, hl, hb, hp]⟩
          | some ep =>
            exact ⟨[.lockAcquired, .bootstrapOnceOk assets, .putTxErr assets ep,
              .cleanUpCalled true false], .ret (some ep), by simp [iter, hg, hl, hb, hp]⟩
  · intro envs fuel tr res e h hmem
    rcases run_shape cfg fuel envs tr res h with ⟨hres, hcont⟩ |
      ⟨pre, last, e0, htr, hres, hcont, hterm⟩
    · have hc := contended_mem cfg hcont _ hmem
      simp at hc
    · subst htr
      subst hres
      rcases List.mem_append.mp hmem with hm | hm
      · have hc := contended_mem cfg hcont _ hm
        simp at hc
      · cases hterm with
        | secondaryFail a2 e2 => simp at hm
        | secondaryDone a2 => simp at hm
        | lockFail e2 => simp at hm
        | bootFail e2 => simp at hm
        | putFail a2 e2 => simp at hm
        | putDone a2 => simp at hm
        | getErrOther e2 hne =>
          simp at hm
          subst hm
          exact ⟨rfl, pre, by simp⟩

end KetoK8

namespace KetoK8

/-- C6 counterexample: a caller-supplied back-off of 5 seconds is discarded —
`New` resets the field to the 20-second default — so a contended iteration
sleeps 20 seconds, not 5; and the lock is attempted with the package constant
TTL of 120 seconds, which no configuration field controls. -/
theorem c6_counterexample :
    (New { MasterBackOffTime := 5, ExitOnCompletion := true }).MasterBackOffTime = 20 ∧
    (20 : Nat) ≠ 5 ∧
    iter (New { MasterBackOffTime := 5, ExitOnCompletion := true })
        { get := .error .keyMissing, lock := .ok false, bootstrapOnce := .ok [],
          putTx := fun _ => none, secondary := fun _ => none, cleanUpResult := none }
      = ([.getMissing, .lockAttempt 120, .lockContended, .sleep 20], .again) := by
  exact ⟨rfl, by decide, rfl⟩

/-- C6 (amended): on lock contention the loop sleeps the `MasterBackOffTime`
stored in the configuration, but `New` unconditionally resets that field to
the named default `defaultBackOff` (20 s), discarding any caller-supplied
value, and the lock is always acquired with the package constant
`defaultLockTTL` (120 s) — the configuration carries no lock-TTL field. -/
theorem c6_amended_defaults (cfg : ConfigType) (env : IterEnv)
    (hg : env.get = .error .keyMissing) (hl : env.lock = .ok false) :
    iter (New cfg) env
      = ([.getMissing, .lockAttempt defaultLockTTL, .lockContended, .sleep defaultBackOff],
         .again)
      ∧ (New cfg).MasterBackOffTime = defaultBackOff := by
  constructor
  · simp [iter, hg, hl, New]
  · rfl

/-- C6 witness: the amended statement at a concrete configuration and a
concrete contended iteration. -/
theorem c6_amended_defaults_witness :
    iter (New { MasterBackOffTime := 5, ExitOnCompletion := false })
        { get := .error .keyMissing, lock := .ok false, bootstrapOnce := .ok [],
          putTx := fun _ => none, secondary := fun _ => none, cleanUpResult := none }
      = ([.getMissing, .lockAttempt defaultLockTTL, .lockContended, .sleep defaultBackOff],
         .again)
      ∧ (New { MasterBackOffTime := 5, ExitOnCompletion := false }).MasterBackOffTime
        = defaultBackOff :=
  c6_amended_defaults _ _ rfl rfl

/-- C8 counterexample: with `ExitOnCompletion` unset, a successful bootstrap
leaves the process in the busy loop `for true {}` — not in a parked wait. -/
theorem c8_counterexample :
    CreateOrGetSharedAssets { MasterBackOffTime := 20, ExitOnCompletion := false }
        ⟨none, none, none⟩
        (fun _ => { get := .ok "PAYLOAD".data, lock := .ok false, bootstrapOnce := .ok [],
                    putTx := fun _ => none, secondary := fun _ => none, cleanUpResult := none })
        1
      = .busySpinForever ∧ Outcome.busySpinForever ≠ Outcome.parkedWaitForever := by
  exact ⟨rfl, by decide⟩

/-- C8 (amended): after a successful bootstrap in either role,
`CreateOrGetSharedAssets` returns nil when `ExitOnCompletion` is set, and
never returns when it is unset — but by spinning in the busy loop
`for true {}`, not by a parked wait. -/
theorem c8_amended_completion_gate (cfg : ConfigType) (pre : PreEnv)
    (envs : Nat → IterEnv) (fuel : Nat)
    (h1 : pre.updateCloudCfg = none) (h2 : pre.copyKubeCa = none)
    (h3 : pre.writeManifests = none) (h4 : (run cfg envs fuel).2 = .ret none) :
    CreateOrGetSharedAssets cfg pre envs fuel
      = if cfg.ExitOnCompletion then .returns none else .busySpinForever := by
  simp [CreateOrGetSharedAssets, h1, h2, h3, h4, completionGate]

/-- C8 witness: the amended statement at a concrete successful secondary
bootstrap with `ExitOnCompletion` set. -/
theorem c8_amended_completion_gate_witness :
    CreateOrGetSharedAssets { MasterBackOffTime := 20, ExitOnCompletion := true }
        ⟨none, none, none⟩
        (fun _ => { get := .ok "PAYLOAD".data, lock := .ok false, bootstrapOnce := .ok [],
                    putTx := fun _ => none, secondary := fun _ => none, cleanUpResult := none })
        1
      = if ({ MasterBackOffTime := 20,
              ExitOnCompletion := true } : ConfigType).ExitOnCompletion
        then Outcome.returns none else Outcome.busySpinForever :=
  c8_amended_completion_gate _ _ _ _ rfl rfl rfl rfl

/-- C1 witness: the theorem applied to a one-iteration run whose bootstrap
fails with error "boom" while the discarded cleanup outcome also fails. -/
theorem c1_cleanup_on_primary_failure_witness :
    RunResult.ret (some (Err.other "boom")) = RunResult.ret (some (Err.other "boom")) ∧
    (∃ t, [Ev.getMissing, Ev.lockAttempt defaultLockTTL, Ev.lockAcquired,
            Ev.bootstrapOnceErr (Err.other "boom"), Ev.cleanUpCalled true false]
        = t ++ [Ev.bootstrapOnceErr (Err.other "boom"), Ev.cleanUpCalled true false]) ∧
    (∀ a, Ev.putTxOk a ∉ [Ev.getMissing, Ev.lockAttempt defaultLockTTL, Ev.lockAcquired,
            Ev.bootstrapOnceErr (Err.other "boom"), Ev.cleanUpCalled true false]) :=
  (c1_cleanup_on_primary_failure { MasterBackOffTime := 20, ExitOnCompletion := true }
      (fun _ => { get := .error .keyMissing, lock := .ok true,
                  bootstrapOnce := .error (.other "boom"), putTx := fun _ => none,
                  secondary := fun _ => none,
                  cleanUpResult := some (.other "cleanup also failed") })
      1 _ _ rfl).1 (Err.other "boom") (by simp)

/-- C4 witness: the theorem applied to a one-iteration run that finds the
asset record present and completes the secondary bootstrap. -/
theorem c4_order_invariant_witness :
    ∃ l1 l2, [Ev.getFound "P".data, Ev.secondaryOk "P".data]
      = l1 ++ Ev.getFound "P".data :: Ev.secondaryOk "P".data :: l2 :=
  (c4_order_invariant { MasterBackOffTime := 20, ExitOnCompletion := true }
      (fun _ => { get := .ok "P".data, lock := .ok false, bootstrapOnce := .ok [],
                  putTx := fun _ => none, secondary := fun _ => none, cleanUpResult := none })
      1 _ _ rfl).1 "P".data (by simp)

/-- C5 witness: the theorem applied to a missing-key iteration and to a
one-iteration run whose get fails with a generic store error. -/
theorem c5_error_classification_witness :
    (∃ tail r, iter { MasterBackOffTime := 20, ExitOnCompletion := true }
        { get := .error .keyMissing, lock := .ok false, bootstrapOnce := .ok [],
          putTx := fun _ => none, secondary := fun _ => none, cleanUpResult := none }
      = (Ev.getMissing :: Ev.lockAttempt defaultLockTTL :: tail, r)) ∧
    (RunResult.ret (some (Err.other "storedown"))
        = RunResult.ret (some (Err.other "storedown")) ∧
     ∃ t, [Ev.getErr (Err.other "storedown")] = t ++ [Ev.getErr (Err.other "storedown")]) := by
  constructor
  · exact (c5_error_classification { MasterBackOffTime := 20, ExitOnCompletion := true }).1
      { get := .error .keyMissing, lock := .ok false, bootstrapOnce := .ok [],
        putTx := fun _ => none, secondary := fun _ => none, cleanUpResult := none } rfl
  · exact (c5_error_classification { MasterBackOffTime := 20, ExitOnCompletion := true }).2
      (fun _ => { get := .error (.other "storedown"), lock := .ok false,
                  bootstrapOnce := .ok [], putTx := fun _ => none,
                  secondary := fun _ => none, cleanUpResult := none })
      1 _ _ _ rfl (by simp)

end KetoK8

namespace KetoK8

/-! ## Claim theorems: codec, cleanup, argument parsing, code divergences -/

/-- C7: serializing a shared-asset bundle as `LoadAndSerializeAssets` does
(the `SharedAssets` JSON payload) and then deserializing and persisting that
payload as `SaveAssets` does reproduces each of the four fields exactly: the
decoded bundle equals the original, and the four files are written with
exactly the original field contents. -/
theorem c7_sharedAssets_roundTrip (a : SharedAssets) :
    LoadAndSerializeAssets
        ⟨.ok a.SaKey, .ok a.SaPub, .ok (true, a.FrontProxyCa, a.FrontProxyCaKey)⟩
      = .ok (marshalSharedAssets a) ∧
    unmarshalSharedAssets (marshalSharedAssets a) = some a ∧
    SaveAssets ⟨none, none, none, none⟩ (marshalSharedAssets a)
      = ([⟨.saPub, a.SaPub⟩, ⟨.saKey, a.SaKey⟩, ⟨.frontProxyCaCert, a.FrontProxyCa⟩,
          ⟨.frontProxyCaKey, a.FrontProxyCaKey⟩], none) := by
  refine ⟨?_, unmarshal_marshal a, ?_⟩
  · cases a
    rfl
  · simp [SaveAssets, unmarshal_marshal]

/-- C9: if `releaseLock` is set and the lock-key deletion fails, `CleanUp`
returns that deletion error at once and never touches the asset key, whatever
`deleteAssets` says; and with both flags unset it performs no store operation
and returns nil. -/
theorem c9_cleanUp_contract :
    (∀ (dl : Err) (da : Option Err) (deleteAssets : Bool),
      CleanUp ⟨some dl, da⟩ true deleteAssets = ([.deleteLockKey], some dl)) ∧
    (∀ env : CleanUpEnv, CleanUp env false false = ([], none)) := by
  exact ⟨fun dl da deleteAssets => rfl, fun env => rfl⟩

/-- C10: `stringToMap` splits its input on commas, splits each item into
fields at `=` and space (maximal non-separator runs), and then an item with
exactly two fields assigns the second to the first, an item with exactly one
field assigns the empty string to it, and any other item assigns nothing. -/
theorem c10_stringToMap_characterisation (args : List Char) :
    stringToMap args =
      (args.splitOn ',').foldl
        (fun argsMap arg =>
          match (arg.splitOnP isKubeArgSep).filter (fun x => !x.isEmpty) with
          | [a, b] => mapAssign argsMap a b
          | [a] => mapAssign argsMap a []
          | _ => argsMap)
        emptyGoMap := by
  unfold stringToMap
  have hfun :
      (fun (argsMap : GoMap) (arg : List Char) =>
        match fieldsFunc isKubeArgSep arg with
        | [a, b] => mapAssign argsMap a b
        | [a] => mapAssign argsMap a []
        | _ => argsMap)
      = (fun (argsMap : GoMap) (arg : List Char) =>
        match (arg.splitOnP isKubeArgSep).filter (fun x => !x.isEmpty) with
        | [a, b] => mapAssign argsMap a b
        | [a] => mapAssign argsMap a []
        | _ => argsMap) := by
    funext argsMap arg
    rw [fieldsFunc_splitOnP]
  rw [hfun]

/-- C2 divergence witness: with a front-proxy certificate on disk that is not
a CA (and every later step succeeding), `LoadAndSerializeAssets` returns its
validity error, but `BootstrapOnce` runs all five later steps anyway and
returns success with the empty payload — the error assigned at line 203 of
the source is overwritten unchecked. -/
theorem c2_bootstrapOnce_drops_load_error :
    LoadAndSerializeAssets ⟨.ok "KEYPEM".data, .ok "PUBPEM".data,
        .ok (false, "CERTPEM".data, "CAKEYPEM".data)⟩
      = .error (.other "certificate and key could be loaded but the certificate is not a CA") ∧
    BootstrapOnce
        ⟨none,
         ⟨.ok "KEYPEM".data, .ok "PUBPEM".data, .ok (false, "CERTPEM".data, "CAKEYPEM".data)⟩,
         none, none, none, none, none⟩
      = ([.createPKI, .loadAndSerializeAssets, .createKubeConfig, .createAndStartKubelet,
          .addons, .installNetwork, .tokensDeploy], .ok []) := by
  exact ⟨rfl, rfl⟩

/-- C3 divergence witness: on the malformed payload `"not-json"`, the decoder
fails, yet `SaveAssets` ignores the `json.Unmarshal` error, writes the four
files with the zero-valued (empty) fields and returns nil, and
`BootstrapSecondaryMaster` then executes every later step. -/
theorem c3_saveAssets_ignores_decode_error :
    unmarshalSharedAssets "not-json".data = none ∧
    SaveAssets ⟨none, none, none, none⟩ "not-json".data
      = ([⟨.saPub, []⟩, ⟨.saKey, []⟩, ⟨.frontProxyCaCert, []⟩, ⟨.frontProxyCaKey, []⟩],
         none) ∧
    BootstrapSecondaryMaster ⟨⟨none, none, none, none⟩, none, none, none, none⟩
        "not-json".data
      = ([.saveAssets [⟨.saPub, []⟩, ⟨.saKey, []⟩, ⟨.frontProxyCaCert, []⟩,
            ⟨.frontProxyCaKey, []⟩],
          .createPKI, .createKubeConfig, .createAndStartKubelet,
          .updateMasterRoleLabelsAndTaints], none) := by
  refine ⟨by decide, ?_, ?_⟩ <;> rfl

end KetoK8
